import Mathlib

/-!
Verification of the TCP/UDP routing core of this repository against its
natural-language specification.

The repository's sources are shallowly embedded: pure functions become Lean
functions, stateful code becomes explicit state passing, concurrent control
flow becomes a step relation on a finite state type.  Go `int`/`time.Duration`
are modelled as `Int`/`Nat` nanoseconds, byte streams as `List Nat`.
-/

namespace Mux

/-- Per-connection routing facts (`ConnData` in pkg/muxer/tcp): the lower-cased
SNI `serverName` and the `remoteIP` parsed from the remote address. -/
structure ConnData where
  serverName : String
  remoteIP : String
deriving DecidableEq, Repr

/-- Modelled from the spec: ASCII check used by the `HostSNI` builder
(`mux.go` is not under src/; only its tests are).  A host argument is valid
only if every character is ASCII. -/
def isASCII (s : String) : Bool :=
  s.data.all (fun c => c.toNat < 128)

/-- ASCII lower-casing of one character (hosts are validated to be ASCII
before they are lower-cased, so ASCII casing suffices for Go
`strings.ToLower` here). -/
def lowerChar (c : Char) : Char :=
  if 'A' ≤ c ∧ c ≤ 'Z' then Char.ofNat (c.toNat + 32) else c

/-- ASCII lower-casing of a host argument. -/
def toLowerAscii (s : String) : String :=
  ⟨s.data.map lowerChar⟩

/-- Go `strings.Contains(host, "*")`. -/
def containsStar (s : String) : Bool :=
  s.data.contains '*'

/-- Go `strings.TrimSuffix(host, ".")`: drop one trailing dot if present. -/
def trimTrailingDot (s : String) : String :=
  if s.data.getLast? = some '.' then ⟨s.data.dropLast⟩ else s

/-- Modelled from the spec: per-argument validation of the `HostSNI` builder
(the builder itself, in `mux.go`, is not under src/).  The global wildcard
`*` is accepted; a non-ASCII argument and a subdomain wildcard such as
`*.bar` are build-time errors, as pinned by `Test_HostSNI` in
src/pkg/muxer/tcp/mux_test.go. -/
def hostArgError (h : String) : Option String :=
  if h = "*" then none
  else if !isASCII h then some ("invalid value " ++ h ++ " for HostSNI matcher, non-ASCII characters are not allowed")
  else if containsStar h then some ("invalid value " ++ h ++ " for HostSNI matcher, subdomain wildcard is not supported")
  else none

/-- Hosts are lower-cased at build time (case-insensitive matching); the
global wildcard is kept as-is. -/
def lowerHost (h : String) : String :=
  if h = "*" then h else toLowerAscii h

/-- Modelled from the spec: the matcher closure built by `hostSNI`
(`mux.go` is not under src/).  As pinned by `Test_HostSNI`:
a leading global wildcard matches everything (including the empty
serverName); otherwise an empty serverName never matches; otherwise the
serverName must equal one of the hosts (trailing-dot-insensitively) or the
list must contain the wildcard somewhere. -/
def hostSNIMatch (hosts : List String) (sn : String) : Bool :=
  match hosts with
  | [] => false
  | h0 :: _ =>
    if h0 = "*" then true
    else if sn = "" then false
    else hosts.any (fun h => h = "*" || h = sn || trimTrailingDot h = sn)

/-- Modelled from the spec: the `hostSNI` matcher builder (`mux.go` is not
under src/, only `Test_HostSNI`).  An empty argument list is a build-time
error; each argument is validated by `hostArgError`; on success the matcher
closure captures the lower-cased hosts. -/
def hostSNI (hosts : List String) : Except String (ConnData → Bool) :=
  if hosts = [] then
    .error "empty value for HostSNI matcher is not allowed"
  else
    match hosts.findSome? hostArgError with
    | some e => .error e
    | none => .ok (fun meta => hostSNIMatch (hosts.map lowerHost) meta.serverName)

/-- A route of the TCP Muxer: rule text, (computed or explicit) priority,
matcher tree and handler.  Handlers are opaque to the muxer and modelled by
an arbitrary type `α`. -/
structure Route (α : Type) where
  rule : String
  priority : Int
  matcher : ConnData → Bool
  handler : α

/-- Modelled from the spec: the routes collection is kept sorted by priority,
descending; insertion is stable, so routes of equal priority stay in
insertion order (the spec requires only a deterministic tie-break). -/
def insertRoute {α : Type} (r : Route α) : List (Route α) → List (Route α)
  | [] => [r]
  | x :: xs => if r.priority ≤ x.priority then x :: insertRoute r xs else r :: x :: xs

/-- The TCP Muxer: a set of routes, one matcher tree per route. -/
structure Muxer (α : Type) where
  routes : List (Route α)

/-- The empty muxer produced by `NewMuxer`. -/
def NewMuxer {α : Type} : Muxer α := ⟨[]⟩

/-- Modelled from the spec: priority computation of `AddRoute` (`mux.go` is
not under src/): if the caller-supplied priority is zero or negative, it is
computed deterministically from the rule's textual length. -/
def computePriority (rule : String) (priority : Int) : Int :=
  if priority ≤ 0 then (rule.length : Int) else priority

/-- Modelled from the spec: `Muxer.AddRoute` stores the route under its
computed-or-given priority.  Rule parsing is abstracted: the matcher tree
built from the rule text is passed in directly. -/
def Muxer.AddRoute {α : Type} (m : Muxer α) (rule : String) (priority : Int)
    (matcher : ConnData → Bool) (handler : α) : Muxer α :=
  ⟨insertRoute ⟨rule, computePriority rule priority, matcher, handler⟩ m.routes⟩

/-- `Muxer.Match`: evaluate stored trees in descending-priority order and
return the handler of the first tree that matches, or none. -/
def Muxer.Match {α : Type} (m : Muxer α) (meta : ConnData) : Option α :=
  (m.routes.find? (fun r => r.matcher meta)).map Route.handler

/-- `Muxer.hasRoutes` reports whether at least one route was added. -/
def Muxer.hasRoutes {α : Type} (m : Muxer α) : Bool :=
  !m.routes.isEmpty

/-- The `HostSNI(\`foobar\`)` rule text of `Test_Priority` (length 17). -/
def ruleShort : String := "HostSNI(`foobar`)"

/-- The `HostSNI(\`foobar\`, \`bar\`)` rule text of `Test_Priority` (length 24). -/
def ruleLong : String := "HostSNI(`foobar`, `bar`)"

/-- The matcher built for `HostSNI(\`foobar\`)`. -/
def matchShort : ConnData → Bool :=
  match hostSNI ["foobar"] with
  | .ok f => f
  | .error _ => fun _ => false

/-- The matcher built for `HostSNI(\`foobar\`, \`bar\`)`. -/
def matchLong : ConnData → Bool :=
  match hostSNI ["foobar", "bar"] with
  | .ok f => f
  | .error _ => fun _ => false

/-- A muxer holding the two `Test_Priority` rules, both with the same explicit
(nonzero) priority 5, the shorter rule added first. -/
def equalPriorityMuxer : Muxer Nat :=
  (((NewMuxer : Muxer Nat).AddRoute ruleShort 5 matchShort 1).AddRoute ruleLong 5 matchLong 2)

/-- The matcher built for `HostSNI(\`foo\`, \`*\`)`: a wildcard alongside a
non-matching host.  The error fallback is the constantly-true matcher, so a
`false` verdict below also certifies that the build succeeded. -/
def hostSNIFooStar : ConnData → Bool :=
  match hostSNI ["foo", "*"] with
  | .ok f => f
  | .error _ => fun _ => true

/-- The matcher built for `HostSNI(\`*\`)`. -/
def hostSNIStar : ConnData → Bool :=
  match hostSNI ["*"] with
  | .ok f => f
  | .error _ => fun _ => false

end Mux

namespace Tcp

/-!
Model of the SNI/ClientHello peeker and the peeked-byte replay wrapper of the
TCP router (package tcp: `clientHelloServerName`, `getPeeked`, `Conn.Read`).
A byte stream is a `List Nat`; a `bufio.Reader` over a connection is split
into the bytes already pulled into its buffer and the bytes still readable
from the connection.  `Peek` is modelled as filling the buffer with exactly
the missing bytes (the Go reader may buffer more per fill; the split between
buffer and connection is an abstraction over fill granularity, and the model
reader is unbounded so the `bufio.NewReaderSize` growth step is the
identity).  On a short stream `Peek` fails after moving everything into the
buffer, like a read to EOF.
-/

/-- A buffered reader over a byte stream: `buffered ++ rest` is the whole
remaining stream; `buffered` are the bytes held in the reader's buffer
(available to `Peek` without consumption), `rest` the bytes still in the
connection. -/
structure BufReader where
  buffered : List Nat
  rest : List Nat
deriving DecidableEq, Repr

/-- `bufio.Reader.Peek n`: return the first `n` bytes without consuming them,
pulling bytes from the connection into the buffer as needed; on a stream
shorter than `n`, fail after buffering whatever was available. -/
def BufReader.peek (br : BufReader) (n : Nat) : Option (List Nat) × BufReader :=
  if n ≤ br.buffered.length then
    (some (br.buffered.take n), br)
  else if n ≤ br.buffered.length + br.rest.length then
    let need := n - br.buffered.length
    (some (br.buffered ++ br.rest.take need), ⟨br.buffered ++ br.rest.take need, br.rest.drop need⟩)
  else
    (none, ⟨br.buffered ++ br.rest, []⟩)

/-- `getPeeked`: the bytes currently buffered, i.e. peeked but not consumed. -/
def getPeeked (br : BufReader) : List Nat :=
  br.buffered

/-- Result of `clientHelloServerName`: the extracted SNI, the TLS flag, the
peeked bytes handed back for replay, whether a (first-peek) error was
returned, and the final reader state (its `rest` is what the connection will
still deliver to the eventual handler). -/
structure HelloResult where
  sni : String
  isTLS : Bool
  peeked : List Nat
  errored : Bool
  br : BufReader
deriving DecidableEq, Repr

/-- The legacy SSLv2 signature byte. -/
def recordTypeSSLv2 : Nat := 0x80

/-- The TLS handshake record type byte. -/
def recordTypeHandshake : Nat := 0x16

/-- Length of a TLS record header. -/
def recordHeaderLen : Nat := 5

/-- The 16-bit record length field of a record header, network byte order:
`int(hdr[3])<<8 | int(hdr[4])` (the version bytes `hdr[1:3]` are ignored). -/
def recLen (hdr : List Nat) : Nat :=
  (hdr.getD 3 0) * 256 + hdr.getD 4 0

/-- Steps 2-5 of `clientHelloServerName`: peek the 5-byte record header, read
the 16-bit record length from bytes 3-4, peek the full record, and drive the
SNI extraction over those bytes.  The TLS handshake state machine runs over a
read-only copy of the peeked bytes and is abstracted by `extractSNI`; its
deliberate abort is not an error.  Each failure returns the bytes peeked so
far with no error. -/
def processRecord (extractSNI : List Nat → String) (br : BufReader) : HelloResult :=
  match br.peek recordHeaderLen with
  | (none, br1) => ⟨"", false, getPeeked br1, false, br1⟩
  | (some hdr, br1) =>
    match br1.peek (recordHeaderLen + recLen hdr) with
    | (none, br2) => ⟨"", true, getPeeked br2, false, br2⟩
    | (some helloBytes, br2) => ⟨extractSNI helloBytes, true, getPeeked br2, false, br2⟩

/-- `clientHelloServerName`: peek one byte; a failure there is the only case
returning an error.  A first byte other than the handshake record type is
classified non-TLS, except the SSLv2 signature byte `0x80`, reported as TLS;
both return immediately with the peeked bytes.  A handshake record type
proceeds to `processRecord`. -/
def clientHelloServerName (extractSNI : List Nat → String) (br : BufReader) : HelloResult :=
  match br.peek 1 with
  | (none, br1) => ⟨"", false, [], true, br1⟩
  | (some hdr, br1) =>
    if hdr.getD 0 0 ≠ recordTypeHandshake then
      if hdr.getD 0 0 = recordTypeSSLv2 then ⟨"", true, getPeeked br1, false, br1⟩
      else ⟨"", false, getPeeked br1, false, br1⟩
    else
      processRecord extractSNI br1

/-- The router's replay wrapper (`Conn` in package tcp): `Peeked` holds the
bytes peeked for route matching but not yet consumed by `Read`; `stream` is
what the underlying `WriteCloser` will deliver. -/
structure ReplayConn where
  Peeked : List Nat
  stream : List Nat
deriving DecidableEq, Repr

/-- `Conn.Read`: while `Peeked` is non-empty, serve (and consume) peeked
bytes — `copy(p, c.Peeked)` moves `min |p| |Peeked|` bytes; only once they
are exhausted, read from the underlying connection (modelled as delivering
up to `plen` bytes of the stream). -/
def ReplayConn.Read (c : ReplayConn) (plen : Nat) : List Nat × ReplayConn :=
  if c.Peeked.length > 0 then
    let n := min plen c.Peeked.length
    (c.Peeked.take n, ⟨c.Peeked.drop n, c.stream⟩)
  else
    (c.stream.take plen, ⟨[], c.stream.drop plen⟩)

/-- Repeatedly `Read` with a buffer of size `plen` until a read returns no
bytes, concatenating everything delivered.  `fuel` bounds the recursion. -/
def ReplayConn.readAll (c : ReplayConn) (plen : Nat) : Nat → List Nat
  | 0 => []
  | fuel + 1 =>
    if (c.Read plen).1.isEmpty then []
    else (c.Read plen).1 ++ (c.Read plen).2.readAll plen fuel

end Tcp

namespace Udp

/-!
Model of the session-oriented UDP listener of src/pkg/udp/conn.go (the
`Session`-configured variant).  Durations are `Int` nanoseconds where signs
matter (`Listen`'s check) and `Nat` nanoseconds inside the shutdown loop.
Channels are modelled by their observable effects: a session's datagram
queue `msgs` is the FIFO queue fed by the listener's read loop through
`receiveCh`, and the read rendezvous over `readCh`/`sizeCh` is the `read`
step below.
-/

/-- `Session`: per-session limits (`Requests`, `Responses`) and the idle
`Timeout` in nanoseconds. -/
structure Session where
  Requests : Int
  Responses : Int
  Timeout : Int
deriving DecidableEq, Repr

/-- A UDP session (`Conn`): the FIFO queue of received-but-unconsumed
datagrams, whether the done-signal (`doneCh`) has fired, the `isClosed`
flag, the read/receive counters and the session limits. -/
structure Conn where
  msgs : List (List Nat)
  doneClosed : Bool
  isClosed : Bool
  readCount : Int
  receiveCount : Int
  session : Session
deriving DecidableEq, Repr

/-- A fresh session as built by `Listener.newConn`. -/
def newConn (session : Session) : Conn :=
  ⟨[], false, false, 0, 0, session⟩

/-- The listener's read loop handing one datagram to the session
(`conn.receiveCh <- buf[:n]`, appended to `c.msgs` by the session's read
loop). -/
def Conn.enqueue (c : Conn) (d : List Nat) : Conn :=
  { c with msgs := c.msgs ++ [d] }

/-- Outcome of one `Conn.Read` call. -/
inductive ReadResult where
  /-- A rendezvous with the session's read loop delivered `out` bytes. -/
  | data (out : List Nat) (c : Conn) : ReadResult
  /-- No queued datagram and no done-signal: the call blocks. -/
  | blocked : ReadResult
  /-- The done-signal has fired: `Read` returns `(0, io.EOF)`. -/
  | eof : ReadResult
deriving DecidableEq, Repr

/-- `Conn.Read` with a buffer of length `plen`: if the done-signal has fired
(the session's read loop has exited), return `(0, io.EOF)`; otherwise
rendezvous with the read loop, which pops the head datagram `msg` and copies
`n := copy(cBuf, msg) = min plen |msg|` bytes — the rest of `msg` is
discarded; `readCount` is incremented.  With an empty queue the call
blocks. -/
def Conn.read (c : Conn) (plen : Nat) : ReadResult :=
  if c.doneClosed then .eof
  else
    match c.msgs with
    | [] => .blocked
    | msg :: restMsgs =>
      .data (msg.take plen) { c with msgs := restMsgs, readCount := c.readCount + 1 }

/-- A sequence of `Conn.Read` calls with buffer sizes `plens`, collecting the
delivered payloads until a call does not deliver data. -/
def Conn.reads (c : Conn) : List Nat → List (List Nat)
  | [] => []
  | plen :: plrest =>
    match c.read plen with
    | .data out c1 => out :: c1.reads plrest
    | _ => []

/-- `Conn.canRead`: the session still has request budget
(`Requests == 0 || readCount < Requests`). -/
def Conn.canRead (c : Conn) : Bool :=
  c.session.Requests == 0 || c.readCount < c.session.Requests

/-- `conn.close()`: fires the done-signal (idempotent via `doneOnce`). -/
def Conn.closeSignal (c : Conn) : Conn :=
  { c with doneClosed := true }

/-- The UDP `Listener`: registry of sessions per remote address, the
`accepting` flag, and the observable closed-state of the accept channel and
of the socket. -/
structure Listener where
  accepting : Bool
  conns : List (String × List Conn)
  acceptChClosed : Bool
  socketClosed : Bool
  session : Session
deriving DecidableEq, Repr

/-- The distinguished `errClosedListener` sentinel. -/
def errClosedListener : String := "udp: listener closed"

/-- `Listen`: rejects a non-positive session idle timeout before any socket
is created; otherwise builds an accepting listener with an empty registry
(the socket creation itself is outside the model). -/
def Listen (session : Session) : Except String Listener :=
  if session.Timeout ≤ 0 then .error "timeout should be greater than zero"
  else .ok ⟨true, [], false, false, session⟩

/-- The ticker period `c.session.Timeout / 10` used by each session's read
loop (Go `Duration` division truncates). -/
def tickerPeriod (timeout : Int) : Int :=
  Int.tdiv timeout 10

/-- Outcome of the admission decision of `Listener.getConn`. -/
inductive GetConnResult where
  /-- An ongoing, not closed, not exhausted session for this address is
  reused. -/
  | reuse (c : Conn) : GetConnResult
  /-- The listener refuses a new session: `errClosedListener`. -/
  | closedErr : GetConnResult
  /-- A new session is created, registered and published on `acceptCh`. -/
  | createNew : GetConnResult
deriving DecidableEq, Repr

/-- The admission decision of `Listener.getConn`: first look for a reusable
session registered under `raddr` (`!conn.isClosed && conn.canRead()`); only
otherwise, if `accepting` is already false, fail with `errClosedListener`;
else a new session is created. -/
def Listener.getConnDecision (l : Listener) (raddr : String) : GetConnResult :=
  let registered := (l.conns.lookup raddr).getD []
  match registered.find? (fun c => !c.isClosed && c.canRead) with
  | some c => .reuse c
  | none => if !l.accepting then .closedErr else .createNew

/-- `Listener.Accept` receives from `acceptCh`: once the channel is closed
the receive yields `nil` and `Accept` returns `errClosedListener`; before
that it yields a published session, if any (`pending`). -/
def Listener.Accept (l : Listener) (pending : Option Conn) : Except String Conn :=
  let received : Option Conn := if l.acceptChClosed then none else pending
  match received with
  | none => .error errClosedListener
  | some c => .ok c

/-- `closeRetryInterval` (500 milliseconds, in nanoseconds). -/
def closeRetryInterval : Nat := 500000000

/-- The poll interval chosen by `Shutdown`: `closeRetryInterval`, lowered to
`graceTimeout` when that is smaller. -/
def retryInterval (graceTimeout : Nat) : Nat :=
  if closeRetryInterval > graceTimeout then graceTimeout else closeRetryInterval

/-- The drain loop of `Shutdown`: starting at time `now` (with the deadline
`endT = start + graceTimeout`), repeatedly: stop once the clock passed the
deadline, stop once the registry is empty, otherwise sleep one retry
interval and poll again.  Returns the number of sleeps.  `connsCount t` is
the size of the session registry at time `t` (sessions close concurrently);
a sleep advances the clock by at least one nanosecond (`max r 1`) because
the wall clock strictly increases between `time.Now()` calls.  `fuel` bounds
the recursion and is chosen large enough to never bind. -/
def shutdownSleeps (connsCount : Nat → Nat) (r endT : Nat) : Nat → Nat → Nat
  | _, 0 => 0
  | now, fuel + 1 =>
    if endT < now then 0
    else if connsCount now = 0 then 0
    else 1 + shutdownSleeps connsCount r endT (now + max r 1) fuel

/-- `Listener.close()`: close the socket, fire the done-signal of every
session still registered and drop them from the registry, then close the
accept channel.  Returns the new listener state and the (closed) sessions
that were force-closed. -/
def Listener.closeListener (l : Listener) : Listener × List Conn :=
  ({ l with socketClosed := true, conns := [], acceptChClosed := true },
   ((l.conns.map Prod.snd).flatten).map Conn.closeSignal)

/-- `Listener.Shutdown graceTimeout`: a second call observes `accepting`
already false and returns immediately with no effect (`(l, [], 0)`).  A
first call flips `accepting`, runs the drain loop with interval
`retryInterval graceTimeout`, then force-closes via `closeListener`.
Returns the final listener, the force-closed sessions, and the number of
poll sleeps. -/
def Listener.Shutdown (l : Listener) (graceTimeout : Nat) (connsCount : Nat → Nat) :
    Listener × List Conn × Nat :=
  if !l.accepting then (l, [], 0)
  else
    let r := retryInterval graceTimeout
    let sleeps := shutdownSleeps connsCount r graceTimeout 0 (graceTimeout + 2)
    let closed := ({ l with accepting := false } : Listener).closeListener
    (closed.1, closed.2, sleeps)

/-- A sample session configuration (no request/response bound, 30ns
timeout). -/
def sampleSession : Session := ⟨0, 0, 30⟩

/-- A sample idle session. -/
def sampleConn : Conn := newConn sampleSession

/-- A sample accepting listener with one registered session. -/
def sampleListener : Listener :=
  ⟨true, [("127.0.0.1:4242", [sampleConn])], false, false, sampleSession⟩

/-- A sample listener after shutdown completed. -/
def closedListener : Listener := ⟨false, [], true, true, sampleSession⟩

end Udp

namespace UdpR

/-- `Listen` of the second (bounded-requests) UDP variant in
src/pkg/udp/proxy.go: the same non-positive-timeout check before any socket
is created.  Only the fields needed by the check are modelled. -/
structure Listener where
  accepting : Bool
  timeout : Int
  requests : Int
deriving DecidableEq, Repr

/-- `Listen network laddr timeout requests` rejects a non-positive timeout;
otherwise the listener accepts, keeping the timeout and request bound. -/
def Listen (timeout : Int) (requests : Int) : Except String Listener :=
  if timeout ≤ 0 then .error "timeout should be greater than zero"
  else .ok ⟨true, timeout, requests⟩

end UdpR

namespace UdpProxy

/-!
Synchronization skeleton of `Proxy.ServeUDP` (the two-copy-loop
implementation in src/unnamed/part_006, the one compatible with the `Conn`
of src/pkg/udp/conn.go).  After the backend dial, `ServeUDP` starts
`connCopy(conn, connBackend, errChan)` (direction A, whose `dst` is the
session conn) and `connCopy(connBackend, conn, errChan)` (direction B, whose
`dst` is the backend conn), receives from the unbuffered `errChan` twice,
then closes the session conn and removes it from `p.conns`; the deferred
`connBackend.Close()` runs as the function returns.  Each `connCopy` runs
`io.CopyBuffer`, sends its error on `errChan` once, then closes its `dst`.
The model is an interleaving step relation over the finite product of the
three tasks' control points plus the two closed-flags; copy termination is
always enabled (an over-approximation of every reason a copy loop stops), so
every real execution is a path of the model.
-/

/-- Control point of a `connCopy` task: still inside `io.CopyBuffer`; copy
finished, about to send on `errChan`; sent, about to `dst.Close()`;
finished. -/
inductive CopyPhase where
  | copying : CopyPhase
  | sending : CopyPhase
  | closingDst : CopyPhase
  | done : CopyPhase
deriving DecidableEq, Fintype, Repr

/-- Control point of the `ServeUDP` body: before the first `<-errChan`,
before the second, at the final close/deregister block, returned. -/
inductive MainPhase where
  | wait1 : MainPhase
  | wait2 : MainPhase
  | closingConn : MainPhase
  | returned : MainPhase
deriving DecidableEq, Fintype, Repr

/-- Global state: the three control points plus whether the session conn and
the backend conn have been closed. -/
structure State where
  mainPh : MainPhase
  copyA : CopyPhase
  copyB : CopyPhase
  connClosed : Bool
  backendClosed : Bool
deriving DecidableEq, Fintype, Repr

/-- Initial state: both copies running, main blocked on the first receive. -/
def init : State := ⟨.wait1, .copying, .copying, false, false⟩

/-- Main advances one receive on a rendezvous. -/
def mainAdvance : MainPhase → Option MainPhase
  | .wait1 => some .wait2
  | .wait2 => some .closingConn
  | _ => none

/-- A copy loop has stopped (its `io.CopyBuffer` has returned). -/
def stopped : CopyPhase → Bool
  | .copying => false
  | .sending => false
  | .closingDst => true
  | .done => true

/-- All states reachable from `s` in one interleaving step: a copy loop
terminating, an `errChan` rendezvous (send of a copy task paired with a
receive of main), a copy task closing its `dst`, or main running the final
close block and returning. -/
def succs (s : State) : List State :=
  (if s.copyA = .copying then [{ s with copyA := .sending }] else []) ++
  (if s.copyB = .copying then [{ s with copyB := .sending }] else []) ++
  (match s.copyA, mainAdvance s.mainPh with
   | .sending, some m => [{ s with copyA := .closingDst, mainPh := m }]
   | _, _ => []) ++
  (match s.copyB, mainAdvance s.mainPh with
   | .sending, some m => [{ s with copyB := .closingDst, mainPh := m }]
   | _, _ => []) ++
  (if s.copyA = .closingDst then [{ s with copyA := .done, connClosed := true }] else []) ++
  (if s.copyB = .closingDst then [{ s with copyB := .done, backendClosed := true }] else []) ++
  (if s.mainPh = .closingConn then
    [{ s with mainPh := .returned, connClosed := true, backendClosed := true }]
   else [])

/-- One interleaving step. -/
def Step (s t : State) : Prop := t ∈ succs s

/-- States reachable from `init`. -/
def Reachable (s : State) : Prop := Relation.ReflTransGen Step init s

/-- Inductive invariant: each receive completed by main is matched by a copy
task past its send; after the final block, both conns are closed; a copy
task that finished closed its own `dst`. -/
def Inv (s : State) : Bool :=
  (if s.mainPh = .wait2 then stopped s.copyA || stopped s.copyB else true) &&
  (if s.mainPh = .closingConn ∨ s.mainPh = .returned then stopped s.copyA && stopped s.copyB else true) &&
  (if s.copyA = .done then s.connClosed else true) &&
  (if s.copyB = .done then s.backendClosed else true) &&
  (if s.mainPh = .returned then s.connClosed && s.backendClosed else true)

/-- The model trace used to exhibit a run that actually returns. -/
def finalState : State := ⟨.returned, .closingDst, .closingDst, true, true⟩

end UdpProxy

namespace failover

/-!
Model of the `Failover` handler (src/unnamed/part_007).  The registered
updater hooks are interchangeable callbacks all receiving the same value, so
the state keeps only their number; a status-setting call returns the new
state together with the list of values passed to the updaters, in
registration order (empty when nothing was propagated).
-/

/-- The `Failover` state: the health-check capability flag, the registered
updaters, and the two status booleans. -/
structure Failover where
  wantsHealthCheck : Bool
  nUpdaters : Nat
  handlerStatus : Bool
  failoverStatus : Bool
deriving DecidableEq, Repr

/-- `New(hc)`: `wantsHealthCheck` records whether a health-check config was
present; both statuses start false with no updaters. -/
def New (hcPresent : Bool) : Failover := ⟨hcPresent, 0, false, false⟩

/-- `RegisterStatusUpdater` fails unless the health check was enabled;
otherwise it appends one updater hook. -/
def RegisterStatusUpdater (f : Failover) : Except String Failover :=
  if !f.wantsHealthCheck then
    .error "healthCheck not enabled in config for this failover service"
  else .ok { f with nUpdaters := f.nUpdaters + 1 }

/-- `SetHandlerStatus`: if the new status equals the current one, do nothing
and propagate nothing; otherwise update it and invoke every registered
updater with `handlerStatus || failoverStatus`. -/
def SetHandlerStatus (f : Failover) (up : Bool) : Failover × List Bool :=
  if up = f.handlerStatus then (f, [])
  else
    let f1 := { f with handlerStatus := up }
    (f1, List.replicate f1.nUpdaters (f1.handlerStatus || f1.failoverStatus))

/-- `SetFailoverHandlerStatus`: the same dedup and propagation for the
failover slot. -/
def SetFailoverHandlerStatus (f : Failover) (up : Bool) : Failover × List Bool :=
  if up = f.failoverStatus then (f, [])
  else
    let f1 := { f with failoverStatus := up }
    (f1, List.replicate f1.nUpdaters (f1.handlerStatus || f1.failoverStatus))

end failover

/-!
## Theorems

Helper lemmas first, then one theorem per claim (with its witness or
counterexample), in claim order.
-/

theorem Mux.hostSNIMatch_cons (h0 : String) (t : List String) (sn : String) :
    Mux.hostSNIMatch (h0 :: t) sn =
      if h0 = "*" then true
      else if sn = "" then false
      else (h0 :: t).any (fun h => h = "*" || h = sn || Mux.trimTrailingDot h = sn) := rfl

/-- Claim C1, counterexample: the two `Test_Priority` rules
`HostSNI(\`foobar\`)` and `HostSNI(\`foobar\`, \`bar\`)` are both added with
the same explicit priority 5 (shorter rule first); both match
serverName `foobar`, yet `Match` returns the shorter rule's handler 1, not
the longer rule's handler 2: with equal explicit nonzero priorities the
stable descending sort keeps insertion order, and rule-text length plays no
role. -/
theorem Mux.priority_equal_explicit_counterexample :
    Mux.matchShort ⟨"foobar", ""⟩ = true ∧ Mux.matchLong ⟨"foobar", ""⟩ = true ∧
    Mux.ruleShort.length < Mux.ruleLong.length ∧
    Mux.equalPriorityMuxer.Match ⟨"foobar", ""⟩ = some 1 ∧ (1 : Nat) ≠ 2 := by decide

/-- Claim C1 (amended): when the two routes are added with priority 0, so
that the priority of each is computed from its rule text's length, the route
with the longer rule text wins whenever both rules match the same ConnData —
whichever order the two routes were added in. -/
theorem Mux.computed_priority_longer_rule_wins {α : Type} (h1 h2 : α)
    (rule1 rule2 : String) (m1 m2 : Mux.ConnData → Bool) (cd : Mux.ConnData)
    (hlen : rule1.length < rule2.length) (_hm1 : m1 cd = true) (hm2 : m2 cd = true) :
    (((Mux.NewMuxer : Mux.Muxer α).AddRoute rule1 0 m1 h1).AddRoute rule2 0 m2 h2).Match cd = some h2 ∧
    (((Mux.NewMuxer : Mux.Muxer α).AddRoute rule2 0 m2 h2).AddRoute rule1 0 m1 h1).Match cd = some h2 := by
  have hc1 : Mux.computePriority rule1 0 = (rule1.length : Int) := by simp [Mux.computePriority]
  have hc2 : Mux.computePriority rule2 0 = (rule2.length : Int) := by simp [Mux.computePriority]
  have hlt : ¬ (Mux.computePriority rule2 0 ≤ Mux.computePriority rule1 0) := by
    rw [hc1, hc2]
    exact_mod_cast Nat.not_le.mpr hlen
  have hle : Mux.computePriority rule1 0 ≤ Mux.computePriority rule2 0 := by
    rw [hc1, hc2]
    exact_mod_cast Nat.le_of_lt hlen
  constructor
  · simp [Mux.NewMuxer, Mux.Muxer.AddRoute, Mux.insertRoute, hlt, Mux.Muxer.Match, List.find?, hm2]
  · simp [Mux.NewMuxer, Mux.Muxer.AddRoute, Mux.insertRoute, hle, Mux.Muxer.Match, List.find?, hm2]

/-- Witness for C1 (amended), at the `Test_Priority` inputs: both rules with
priority 0 and serverName `foobar`, the longer rule's handler 2 is
selected. -/
theorem Mux.computed_priority_longer_rule_wins_witness :
    Mux.ruleShort.length < Mux.ruleLong.length ∧
    Mux.matchShort ⟨"foobar", ""⟩ = true ∧ Mux.matchLong ⟨"foobar", ""⟩ = true ∧
    (((Mux.NewMuxer : Mux.Muxer Nat).AddRoute Mux.ruleShort 0 Mux.matchShort 1).AddRoute
      Mux.ruleLong 0 Mux.matchLong 2).Match ⟨"foobar", ""⟩ = some 2 :=
  ⟨by decide, by decide, by decide,
   (Mux.computed_priority_longer_rule_wins 1 2 Mux.ruleShort Mux.ruleLong Mux.matchShort
     Mux.matchLong ⟨"foobar", ""⟩ (by decide) (by decide) (by decide)).1⟩

/-- Claim C2, counterexample: `HostSNI(\`foo\`, \`*\`)` builds successfully,
but its matcher returns `false` for the empty serverName — the wildcard
matches every serverName only when it is the first argument; alongside other
hosts it does not cover the empty serverName (as pinned by the
`Test_HostSNI` case `Matching globing host \`*\` and another non matching
host, and empty servername`). -/
theorem Mux.hostSNI_wildcard_alongside_empty_counterexample :
    (Mux.hostSNI ["foo", "*"]).isOk = true ∧ Mux.hostSNIFooStar ⟨"", ""⟩ = false := by decide

/-- Claim C2 (amended): a successfully built `HostSNI` matcher whose
argument list contains the wildcard `*` matches every non-empty serverName;
when the wildcard is the first argument the matcher matches every
serverName, including the empty one; and building `HostSNI(\`*.bar\`)`
(subdomain wildcard) fails at build time. -/
theorem Mux.hostSNI_wildcard_semantics :
    (∀ (hosts : List String) (f : Mux.ConnData → Bool) (cd : Mux.ConnData),
      Mux.hostSNI hosts = .ok f → "*" ∈ hosts → cd.serverName ≠ "" → f cd = true) ∧
    (∀ (hosts : List String) (f : Mux.ConnData → Bool) (cd : Mux.ConnData),
      Mux.hostSNI hosts = .ok f → hosts.head? = some "*" → f cd = true) ∧
    (Mux.hostSNI ["*.bar"]).isOk = false := by
  refine ⟨?_, ?_, by decide⟩
  · intro hosts f cd hok hmem hsn
    unfold Mux.hostSNI at hok
    split at hok
    · exact absurd hok (by simp)
    · cases hfs : hosts.findSome? Mux.hostArgError with
      | some e => rw [hfs] at hok; exact absurd hok (by simp)
      | none =>
        rw [hfs] at hok
        have hf : f = fun meta => Mux.hostSNIMatch (hosts.map Mux.lowerHost) meta.serverName := by
          have := hok
          simp only [Except.ok.injEq] at this
          exact this.symm
        rw [hf]
        show Mux.hostSNIMatch (hosts.map Mux.lowerHost) cd.serverName = true
        have hmem2 : "*" ∈ hosts.map Mux.lowerHost := by
          have h := List.mem_map_of_mem Mux.lowerHost hmem
          simpa [Mux.lowerHost] using h
        cases hh : hosts.map Mux.lowerHost with
        | nil => rw [hh] at hmem2; simp at hmem2
        | cons h0 t =>
          rw [hh] at hmem2
          rw [Mux.hostSNIMatch_cons]
          by_cases h0star : h0 = "*"
          · simp [h0star]
          · rw [if_neg h0star, if_neg hsn]
            exact List.any_eq_true.mpr ⟨"*", hmem2, by simp⟩
  · intro hosts f cd hok hhead
    unfold Mux.hostSNI at hok
    split at hok
    · exact absurd hok (by simp)
    · cases hfs : hosts.findSome? Mux.hostArgError with
      | some e => rw [hfs] at hok; exact absurd hok (by simp)
      | none =>
        rw [hfs] at hok
        have hf : f = fun meta => Mux.hostSNIMatch (hosts.map Mux.lowerHost) meta.serverName := by
          simp only [Except.ok.injEq] at hok
          exact hok.symm
        rw [hf]
        show Mux.hostSNIMatch (hosts.map Mux.lowerHost) cd.serverName = true
        have hhead2 : (hosts.map Mux.lowerHost).head? = some "*" := by
          rw [List.head?_map, hhead]
          simp [Mux.lowerHost]
        cases hh : hosts.map Mux.lowerHost with
        | nil => rw [hh] at hhead2; simp at hhead2
        | cons h0 t =>
          rw [hh] at hhead2
          simp at hhead2
          rw [Mux.hostSNIMatch_cons]
          simp [hhead2]

/-- Witness for C2 (amended): `HostSNI(\`*\`)` builds, matches the empty
serverName, and `HostSNI(\`*.bar\`)` is rejected. -/
theorem Mux.hostSNI_wildcard_semantics_witness :
    Mux.hostSNI ["*"] = .ok Mux.hostSNIStar ∧ Mux.hostSNIStar ⟨"", "10.0.0.1"⟩ = true ∧
    (Mux.hostSNI ["*.bar"]).isOk = false :=
  ⟨rfl, Mux.hostSNI_wildcard_semantics.2.1 ["*"] Mux.hostSNIStar ⟨"", "10.0.0.1"⟩ rfl rfl,
   Mux.hostSNI_wildcard_semantics.2.2⟩

theorem Tcp.peek_total (br : Tcp.BufReader) (n : Nat) :
    (br.peek n).2.buffered ++ (br.peek n).2.rest = br.buffered ++ br.rest := by
  unfold Tcp.BufReader.peek
  split
  · rfl
  · split
    · simp
    · simp

theorem Tcp.peek_none (br : Tcp.BufReader) (n : Nat) (h : ((br.peek n).1).isNone = true) :
    (br.peek n).2 = ⟨br.buffered ++ br.rest, []⟩ ∧ br.buffered.length + br.rest.length < n := by
  unfold Tcp.BufReader.peek at h ⊢
  split at h
  · simp at h
  · split at h
    · simp at h
    · rename_i h1 h2
      rw [if_neg h1, if_neg h2]
      refine ⟨rfl, by omega⟩

theorem Tcp.processRecord_conserves (f : List Nat → String) (br : Tcp.BufReader) :
    (Tcp.processRecord f br).peeked = (Tcp.processRecord f br).br.buffered ∧
    (Tcp.processRecord f br).br.buffered ++ (Tcp.processRecord f br).br.rest =
      br.buffered ++ br.rest ∧
    (Tcp.processRecord f br).errored = false := by
  unfold Tcp.processRecord
  split
  · rename_i br1 hp
    refine ⟨rfl, ?_, rfl⟩
    have h1 := Tcp.peek_total br Tcp.recordHeaderLen
    rw [hp] at h1
    exact h1
  · rename_i hdr br1 hp
    have h1 := Tcp.peek_total br Tcp.recordHeaderLen
    rw [hp] at h1
    split
    · rename_i br2 hq
      have h2 := Tcp.peek_total br1 (Tcp.recordHeaderLen + Tcp.recLen hdr)
      rw [hq] at h2
      exact ⟨rfl, h2.trans h1, rfl⟩
    · rename_i helloBytes br2 hq
      have h2 := Tcp.peek_total br1 (Tcp.recordHeaderLen + Tcp.recLen hdr)
      rw [hq] at h2
      exact ⟨rfl, h2.trans h1, rfl⟩

theorem Tcp.clientHello_conserves (f : List Nat → String) (br : Tcp.BufReader) :
    (Tcp.clientHelloServerName f br).peeked ++ (Tcp.clientHelloServerName f br).br.rest =
      br.buffered ++ br.rest := by
  unfold Tcp.clientHelloServerName
  split
  · rename_i br1 hp
    have hn := Tcp.peek_none br 1 (by rw [hp]; rfl)
    have hbr1 : br1 = ⟨br.buffered ++ br.rest, []⟩ := by
      have h := hn.1
      rw [hp] at h
      exact h
    have hb : br.buffered = [] := List.length_eq_zero.mp (by have := hn.2; omega)
    have hr : br.rest = [] := List.length_eq_zero.mp (by have := hn.2; omega)
    simp [hbr1, hb, hr]
  · rename_i hdr br1 hp
    have h1 := Tcp.peek_total br 1
    rw [hp] at h1
    split
    · split
      · exact h1
      · exact h1
    · have hc := Tcp.processRecord_conserves f br1
      rw [hc.1]
      exact hc.2.1.trans h1

theorem Tcp.peek_one_cons (b : Nat) (t : List Nat) :
    Tcp.BufReader.peek ⟨[], b :: t⟩ 1 = (some [b], ⟨[b], t⟩) := by
  unfold Tcp.BufReader.peek
  simp

theorem Tcp.clientHello_on_cons (f : List Nat → String) (b : Nat) (t : List Nat) :
    Tcp.clientHelloServerName f ⟨[], b :: t⟩ =
      if b = Tcp.recordTypeHandshake then Tcp.processRecord f ⟨[b], t⟩
      else if b = Tcp.recordTypeSSLv2 then ⟨"", true, [b], false, ⟨[b], t⟩⟩
      else ⟨"", false, [b], false, ⟨[b], t⟩⟩ := by
  unfold Tcp.clientHelloServerName
  rw [Tcp.peek_one_cons]
  by_cases hb : b = Tcp.recordTypeHandshake
  · simp [hb, Tcp.getPeeked]
  · by_cases hs : b = Tcp.recordTypeSSLv2
    · simp [hb, hs, Tcp.getPeeked]
    · simp [hb, hs, Tcp.getPeeked]

/-- Claim C3: round-trip of the peek-and-replay machinery.  First conjunct:
for every byte stream and SNI extractor, the `peekedBytes` returned by
`clientHelloServerName` concatenated with the bytes still readable from the
connection equal the original stream.  Second conjunct: draining the replay
wrapper `Conn` (holding `Peeked` plus the underlying connection) with any
positive buffer size yields exactly the peeked bytes followed by the live
stream — no loss, no duplication. -/
theorem Tcp.peek_replay_roundtrip :
    (∀ (f : List Nat → String) (stream : List Nat),
      (Tcp.clientHelloServerName f ⟨[], stream⟩).peeked ++
        (Tcp.clientHelloServerName f ⟨[], stream⟩).br.rest = stream) ∧
    (∀ (c : Tcp.ReplayConn) (plen fuel : Nat), 0 < plen →
      c.Peeked.length + c.stream.length ≤ fuel →
      c.readAll plen fuel = c.Peeked ++ c.stream) := by
  constructor
  · intro f stream
    simpa using Tcp.clientHello_conserves f ⟨[], stream⟩
  · intro c plen fuel
    induction fuel generalizing c with
    | zero =>
      intro hp hlen
      have h1 : c.Peeked = [] := List.length_eq_zero.mp (by omega)
      have h2 : c.stream = [] := List.length_eq_zero.mp (by omega)
      simp [Tcp.ReplayConn.readAll, h1, h2]
    | succ n ih =>
      intro hp hlen
      unfold Tcp.ReplayConn.readAll Tcp.ReplayConn.Read
      by_cases hpk : c.Peeked.length > 0
      · rw [if_pos hpk]
        have htk : (c.Peeked.take (min plen c.Peeked.length)).isEmpty = false := by
          have h : c.Peeked.take (min plen c.Peeked.length) ≠ [] := by
            apply List.ne_nil_of_length_pos
            rw [List.length_take]
            omega
          simpa [List.isEmpty_iff] using h
        simp only [htk, if_false, Bool.false_eq_true]
        have hrec := ih ⟨c.Peeked.drop (min plen c.Peeked.length), c.stream⟩
          (by simpa using hp) (by simp; omega)
        simp only at hrec
        rw [hrec]
        rw [← List.append_assoc, List.take_append_drop]
      · rw [if_neg hpk]
        have hpe : c.Peeked = [] := List.length_eq_zero.mp (by omega)
        cases hst : c.stream with
        | nil =>
          simp [hpe]
        | cons s ss =>
          have htk : ((s :: ss).take plen).isEmpty = false := by
            have h : (s :: ss).take plen ≠ [] := by
              apply List.ne_nil_of_length_pos
              rw [List.length_take]
              simp
              omega
            simpa [List.isEmpty_iff] using h
          simp only [htk, if_false, Bool.false_eq_true]
          have hrec := ih ⟨[], (s :: ss).drop plen⟩ hp
            (by rw [hst] at hlen; simp at hlen ⊢; omega)
          simp only at hrec
          rw [hrec]
          simp [hpe, List.take_append_drop]

/-- Witness for C3: a 7-byte stream round-trips through the peeker, and a
replay conn with 2 peeked and 3 live bytes drains to exactly those 5
bytes. -/
theorem Tcp.peek_replay_roundtrip_witness :
    (Tcp.clientHelloServerName (fun _ => "") ⟨[], [0x16, 3, 1, 0, 2, 9, 9]⟩).peeked ++
      (Tcp.clientHelloServerName (fun _ => "") ⟨[], [0x16, 3, 1, 0, 2, 9, 9]⟩).br.rest =
      [0x16, 3, 1, 0, 2, 9, 9] ∧
    0 < 3 ∧ (2 : Nat) + 3 ≤ 5 ∧
    Tcp.ReplayConn.readAll ⟨[1, 2], [3, 4, 5]⟩ 3 5 = [1, 2] ++ [3, 4, 5] :=
  ⟨Tcp.peek_replay_roundtrip.1 (fun _ => "") [0x16, 3, 1, 0, 2, 9, 9], by decide, by decide,
   Tcp.peek_replay_roundtrip.2 ⟨[1, 2], [3, 4, 5]⟩ 3 5 (by decide) (by decide)⟩

/-- Claim C8: `clientHelloServerName` classifies a stream by its first
peeked byte: `0x16` proceeds as a TLS handshake record (the result is
exactly `processRecord` on the remaining state); `0x80` is reported as TLS
with an empty serverName, returning immediately with the peeked byte and no
error; every other first byte is reported non-TLS, returning immediately
with the peeked byte and no error. -/
theorem Tcp.clientHello_first_byte_classification (f : List Nat → String) (b : Nat) (t : List Nat) :
    (b = Tcp.recordTypeHandshake →
      Tcp.clientHelloServerName f ⟨[], b :: t⟩ = Tcp.processRecord f ⟨[b], t⟩) ∧
    (b = Tcp.recordTypeSSLv2 →
      Tcp.clientHelloServerName f ⟨[], b :: t⟩ = ⟨"", true, [b], false, ⟨[b], t⟩⟩) ∧
    (b ≠ Tcp.recordTypeHandshake → b ≠ Tcp.recordTypeSSLv2 →
      Tcp.clientHelloServerName f ⟨[], b :: t⟩ = ⟨"", false, [b], false, ⟨[b], t⟩⟩) := by
  refine ⟨?_, ?_, ?_⟩
  · intro hb
    rw [Tcp.clientHello_on_cons, if_pos hb]
  · intro hb
    rw [Tcp.clientHello_on_cons, if_neg (by rw [hb]; decide), if_pos hb]
  · intro hb hs
    rw [Tcp.clientHello_on_cons, if_neg hb, if_neg hs]

/-- Witness for C8 at first bytes `0x80`, `0x50` and `0x16`. -/
theorem Tcp.clientHello_first_byte_classification_witness :
    Tcp.clientHelloServerName (fun _ => "") ⟨[], [0x80, 1]⟩ =
      ⟨"", true, [0x80], false, ⟨[0x80], [1]⟩⟩ ∧
    Tcp.clientHelloServerName (fun _ => "") ⟨[], [0x50, 1]⟩ =
      ⟨"", false, [0x50], false, ⟨[0x50], [1]⟩⟩ ∧
    Tcp.clientHelloServerName (fun _ => "") ⟨[], [0x16, 1]⟩ =
      Tcp.processRecord (fun _ => "") ⟨[0x16], [1]⟩ :=
  ⟨(Tcp.clientHello_first_byte_classification (fun _ => "") 0x80 [1]).2.1 rfl,
   (Tcp.clientHello_first_byte_classification (fun _ => "") 0x50 [1]).2.2 (by decide) (by decide),
   (Tcp.clientHello_first_byte_classification (fun _ => "") 0x16 [1]).1 rfl⟩

/-- Claim C9: only a failure to peek the very first byte (an empty stream)
produces an error; on every non-empty stream `clientHelloServerName`
returns a nil error and hands back as `peeked` exactly the bytes pulled into
the reader's buffer so far (in particular through all later peek failures
and the deliberately aborted handshake). -/
theorem Tcp.clientHello_error_only_first_peek (f : List Nat → String) (stream : List Nat) :
    (stream = [] → (Tcp.clientHelloServerName f ⟨[], stream⟩).errored = true) ∧
    (stream ≠ [] → (Tcp.clientHelloServerName f ⟨[], stream⟩).errored = false ∧
      (Tcp.clientHelloServerName f ⟨[], stream⟩).peeked =
        (Tcp.clientHelloServerName f ⟨[], stream⟩).br.buffered) := by
  constructor
  · intro hs
    subst hs
    rfl
  · intro hs
    obtain ⟨b, t, rfl⟩ : ∃ b t, stream = b :: t := by
      cases stream with
      | nil => exact absurd rfl hs
      | cons b t => exact ⟨b, t, rfl⟩
    rw [Tcp.clientHello_on_cons]
    by_cases hb : b = Tcp.recordTypeHandshake
    · rw [if_pos hb]
      have hc := Tcp.processRecord_conserves f ⟨[b], t⟩
      exact ⟨hc.2.2, hc.1⟩
    · rw [if_neg hb]
      by_cases hs2 : b = Tcp.recordTypeSSLv2
      · rw [if_pos hs2]
        exact ⟨rfl, rfl⟩
      · rw [if_neg hs2]
        exact ⟨rfl, rfl⟩

/-- Witness for C9: the empty stream errors; the stream `[0x16]` (whose
5-byte header peek fails) does not. -/
theorem Tcp.clientHello_error_only_first_peek_witness :
    (Tcp.clientHelloServerName (fun _ => "") ⟨[], []⟩).errored = true ∧
    (Tcp.clientHelloServerName (fun _ => "") ⟨[], [0x16]⟩).errored = false :=
  ⟨(Tcp.clientHello_error_only_first_peek (fun _ => "") []).1 rfl,
   ((Tcp.clientHello_error_only_first_peek (fun _ => "") [0x16]).2 (by decide)).1⟩

/-- Claim C4: each `Conn.Read` delivers at most one whole queued datagram
(`min plen |msg|` bytes of the head datagram; its excess is discarded and
never carries over — the tail of the queue is untouched); successive reads
consume datagrams in the FIFO order the shared read loop enqueued them; and
once the done-signal has fired, `Read` returns `(0, io.EOF)`. -/
theorem Udp.conn_read_fifo_datagram :
    (∀ (c : Udp.Conn) (plen : Nat) (msg : List Nat) (restMsgs : List (List Nat)),
      c.doneClosed = false → c.msgs = msg :: restMsgs →
      c.read plen = .data (msg.take plen)
        { c with msgs := restMsgs, readCount := c.readCount + 1 }) ∧
    (∀ (c : Udp.Conn) (plens : List Nat), c.doneClosed = false →
      c.reads plens = List.zipWith (fun plen msg => msg.take plen) plens c.msgs) ∧
    (∀ (c : Udp.Conn) (d : List Nat), (c.enqueue d).msgs = c.msgs ++ [d]) ∧
    (∀ (c : Udp.Conn) (plen : Nat), c.doneClosed = true → c.read plen = .eof) := by
  refine ⟨?_, ?_, ?_, ?_⟩
  · intro c plen msg restMsgs hdone hmsgs
    simp [Udp.Conn.read, hdone, hmsgs]
  · intro c plens hdone
    induction plens generalizing c with
    | nil => simp [Udp.Conn.reads]
    | cons plen ps ih =>
      cases hmsgs : c.msgs with
      | nil =>
        simp [Udp.Conn.reads, Udp.Conn.read, hdone, hmsgs]
      | cons msg rest =>
        have hread : c.read plen = .data (msg.take plen)
            { c with msgs := rest, readCount := c.readCount + 1 } := by
          simp [Udp.Conn.read, hdone, hmsgs]
        simp only [Udp.Conn.reads, hread, hmsgs]
        rw [ih]
        · simp
        · exact hdone
  · intro c d
    rfl
  · intro c plen hdone
    simp [Udp.Conn.read, hdone]

/-- Witness for C4 on a session with queued datagrams `[1,2,3]` and `[4]`:
a 2-byte read delivers `[1,2]` (byte 3 discarded, queue advanced), reads
drain FIFO, and a done session reads as EOF. -/
theorem Udp.conn_read_fifo_datagram_witness :
    (Udp.Conn.mk [[1, 2, 3], [4]] false false 0 0 ⟨0, 0, 30⟩).doneClosed = false ∧
    (Udp.Conn.mk [[1, 2, 3], [4]] false false 0 0 ⟨0, 0, 30⟩).read 2 =
      .data [1, 2] ⟨[[4]], false, false, 1, 0, ⟨0, 0, 30⟩⟩ ∧
    (Udp.Conn.mk [[1, 2, 3], [4]] false false 0 0 ⟨0, 0, 30⟩).reads [2, 9] = [[1, 2], [4]] ∧
    (Udp.Conn.mk [] true true 0 0 ⟨0, 0, 30⟩).read 5 = .eof :=
  ⟨by decide,
   by
    have h := Udp.conn_read_fifo_datagram.1 (Udp.Conn.mk [[1, 2, 3], [4]] false false 0 0 ⟨0, 0, 30⟩)
      2 [1, 2, 3] [[4]] (by decide) (by decide)
    simpa using h,
   by
    have h := Udp.conn_read_fifo_datagram.2.1 (Udp.Conn.mk [[1, 2, 3], [4]] false false 0 0 ⟨0, 0, 30⟩)
      [2, 9] (by decide)
    simpa using h,
   Udp.conn_read_fifo_datagram.2.2.2 (Udp.Conn.mk [] true true 0 0 ⟨0, 0, 30⟩) 5 (by decide)⟩

/-- Claim C6: `Shutdown` is idempotent (with `accepting` already false it
returns nil immediately with no effect, in particular after a first
`Shutdown`); `getConn` refuses a new session with `errClosedListener` once
`accepting` is false; the drain loop polls every
`min(closeRetryInterval, graceTimeout)` and performs no sleep once the
registry is empty or the grace deadline has passed; a completing `Shutdown`
force-closes the socket, fires the done-signal of every remaining session,
empties the registry and closes the accept channel; and an `Accept` on the
closed accept channel returns the `errClosedListener` sentinel. -/
theorem Udp.listener_shutdown_spec :
    (∀ (l : Udp.Listener) (g : Nat) (cc : Nat → Nat), l.accepting = false →
      l.Shutdown g cc = (l, [], 0)) ∧
    (∀ (l : Udp.Listener) (g g2 : Nat) (cc cc2 : Nat → Nat),
      ((l.Shutdown g cc).1.Shutdown g2 cc2) = ((l.Shutdown g cc).1, [], 0)) ∧
    (∀ (l : Udp.Listener) (raddr : String), l.accepting = false →
      l.conns.lookup raddr = none → l.getConnDecision raddr = .closedErr) ∧
    (∀ g : Nat, Udp.retryInterval g = min Udp.closeRetryInterval g) ∧
    (∀ (l : Udp.Listener) (g : Nat) (cc : Nat → Nat), l.accepting = true →
      (l.Shutdown g cc).1.accepting = false ∧
      (l.Shutdown g cc).1.socketClosed = true ∧
      (l.Shutdown g cc).1.conns = [] ∧
      (l.Shutdown g cc).1.acceptChClosed = true ∧
      (l.Shutdown g cc).2.1 = ((l.conns.map Prod.snd).flatten).map Udp.Conn.closeSignal ∧
      (∀ c ∈ (l.Shutdown g cc).2.1, c.doneClosed = true)) ∧
    (∀ (l : Udp.Listener) (pending : Option Udp.Conn), l.acceptChClosed = true →
      l.Accept pending = .error Udp.errClosedListener) ∧
    (∀ (cc : Nat → Nat) (r endT now fuel : Nat), (cc now = 0 ∨ endT < now) →
      Udp.shutdownSleeps cc r endT now fuel = 0) := by
  refine ⟨?_, ?_, ?_, ?_, ?_, ?_, ?_⟩
  · intro l g cc hacc
    simp [Udp.Listener.Shutdown, hacc]
  · intro l g g2 cc cc2
    by_cases hacc : l.accepting = true
    · simp [Udp.Listener.Shutdown, hacc, Udp.Listener.closeListener]
    · simp only [Bool.not_eq_true] at hacc
      simp [Udp.Listener.Shutdown, hacc]
  · intro l raddr hacc hlook
    simp [Udp.Listener.getConnDecision, hacc, hlook]
  · intro g
    unfold Udp.retryInterval
    rw [Nat.min_def]
    split
    · split
      · omega
      · omega
    · split
      · omega
      · omega
  · intro l g cc hacc
    have h5 : (l.Shutdown g cc).2.1 =
        ((l.conns.map Prod.snd).flatten).map Udp.Conn.closeSignal := by
      simp [Udp.Listener.Shutdown, hacc, Udp.Listener.closeListener]
    refine ⟨?_, ?_, ?_, ?_, h5, ?_⟩
    · simp [Udp.Listener.Shutdown, hacc, Udp.Listener.closeListener]
    · simp [Udp.Listener.Shutdown, hacc, Udp.Listener.closeListener]
    · simp [Udp.Listener.Shutdown, hacc, Udp.Listener.closeListener]
    · simp [Udp.Listener.Shutdown, hacc, Udp.Listener.closeListener]
    · intro c hmem
      rw [h5] at hmem
      obtain ⟨c0, hc0, rfl⟩ := List.mem_map.mp hmem
      rfl
  · intro l pending hclosed
    simp [Udp.Listener.Accept, hclosed]
  · intro cc r endT now fuel h
    cases fuel with
    | zero => rfl
    | succ n =>
      unfold Udp.shutdownSleeps
      by_cases he : endT < now
      · rw [if_pos he]
      · rcases h with h | h
        · rw [if_neg he, if_pos h]
        · exact absurd h he

/-- Witness for C6 on a one-session listener: shutdown closes the channel
and empties the registry, a second shutdown is a no-op, the poll interval
matches, and a closed listener refuses `Accept` and new sessions. -/
theorem Udp.listener_shutdown_spec_witness :
    Udp.sampleListener.accepting = true ∧
    (Udp.sampleListener.Shutdown 0 (fun _ => 1)).1.acceptChClosed = true ∧
    (Udp.sampleListener.Shutdown 0 (fun _ => 1)).1.conns = [] ∧
    (Udp.sampleListener.Shutdown 0 (fun _ => 1)).1.Shutdown 5 (fun _ => 0) =
      ((Udp.sampleListener.Shutdown 0 (fun _ => 1)).1, [], 0) ∧
    Udp.retryInterval 7 = min Udp.closeRetryInterval 7 ∧
    Udp.shutdownSleeps (fun _ => 0) 1 5 0 7 = 0 ∧
    Udp.closedListener.acceptChClosed = true ∧
    Udp.closedListener.Accept none = .error Udp.errClosedListener ∧
    Udp.closedListener.accepting = false ∧
    Udp.closedListener.getConnDecision "10.0.0.9:53" = .closedErr :=
  ⟨by decide,
   (Udp.listener_shutdown_spec.2.2.2.2.1 Udp.sampleListener 0 (fun _ => 1) (by decide)).2.2.2.1,
   (Udp.listener_shutdown_spec.2.2.2.2.1 Udp.sampleListener 0 (fun _ => 1) (by decide)).2.2.1,
   Udp.listener_shutdown_spec.2.1 Udp.sampleListener 0 5 (fun _ => 1) (fun _ => 0),
   Udp.listener_shutdown_spec.2.2.2.1 7,
   Udp.listener_shutdown_spec.2.2.2.2.2.2 (fun _ => 0) 1 5 0 7 (Or.inl rfl),
   by decide,
   Udp.listener_shutdown_spec.2.2.2.2.2.1 Udp.closedListener none (by decide),
   by decide,
   Udp.listener_shutdown_spec.2.2.1 Udp.closedListener "10.0.0.9:53" (by decide) (by decide)⟩

/-- Claim C7: `SetHandlerStatus`/`SetFailoverHandlerStatus` with a status
equal to the slot's current status are no-ops invoking no updater; a
status-changing call invokes every registered updater exactly once with
`handlerStatus || failoverStatus`, and an immediately repeated call with the
same value invokes none (so two same-value calls propagate exactly once, on
the first call only). -/
theorem failover.set_status_dedup_propagation :
    (∀ (f : failover.Failover) (up : Bool), up = f.handlerStatus →
      failover.SetHandlerStatus f up = (f, [])) ∧
    (∀ (f : failover.Failover) (up : Bool), up = f.failoverStatus →
      failover.SetFailoverHandlerStatus f up = (f, [])) ∧
    (∀ (f : failover.Failover) (up : Bool), up ≠ f.handlerStatus →
      (failover.SetHandlerStatus f up).2 = List.replicate f.nUpdaters (up || f.failoverStatus) ∧
      failover.SetHandlerStatus (failover.SetHandlerStatus f up).1 up =
        ((failover.SetHandlerStatus f up).1, [])) ∧
    (∀ (f : failover.Failover) (up : Bool), up ≠ f.failoverStatus →
      (failover.SetFailoverHandlerStatus f up).2 =
        List.replicate f.nUpdaters (f.handlerStatus || up)) := by
  refine ⟨?_, ?_, ?_, ?_⟩
  · intro f up h
    simp [failover.SetHandlerStatus, h]
  · intro f up h
    simp [failover.SetFailoverHandlerStatus, h]
  · intro f up h
    constructor
    · simp [failover.SetHandlerStatus, h]
    · simp [failover.SetHandlerStatus, h]
  · intro f up h
    simp [failover.SetFailoverHandlerStatus, h]

/-- Witness for C7 with one (and two) registered updaters: a real change
propagates once, the repeated call and the equal-status call propagate
nothing. -/
theorem failover.set_status_dedup_propagation_witness :
    (true : Bool) ≠ (failover.Failover.mk true 1 false false).handlerStatus ∧
    failover.SetHandlerStatus ⟨true, 1, false, false⟩ true = (⟨true, 1, true, false⟩, [true]) ∧
    failover.SetHandlerStatus (failover.SetHandlerStatus ⟨true, 1, false, false⟩ true).1 true =
      ((failover.SetHandlerStatus ⟨true, 1, false, false⟩ true).1, []) ∧
    failover.SetHandlerStatus ⟨true, 1, false, false⟩ false = (⟨true, 1, false, false⟩, []) ∧
    (failover.SetFailoverHandlerStatus ⟨true, 2, false, false⟩ true).2 = [true, true] :=
  ⟨by decide, by decide,
   (failover.set_status_dedup_propagation.2.2.1 ⟨true, 1, false, false⟩ true (by decide)).2,
   failover.set_status_dedup_propagation.1 ⟨true, 1, false, false⟩ false (by decide),
   by
    have h := failover.set_status_dedup_propagation.2.2.2 ⟨true, 2, false, false⟩ true (by decide)
    simpa using h⟩

/-- Claim C10, counterexample: `Listen` with a session timeout of 5ns
succeeds (5 > 0), yet the per-session ticker period `Timeout / 10` is 0 —
not strictly positive — because Go `Duration` division truncates; the
claim's parenthetical "ensuring the per-session ticker period timeout/10 is
positive" does not follow from a positive timeout. -/
theorem Udp.listen_ticker_period_counterexample :
    Udp.Listen ⟨0, 0, 5⟩ = .ok ⟨true, [], false, false, ⟨0, 0, 5⟩⟩ ∧
    Udp.tickerPeriod 5 = 0 :=
  ⟨rfl, rfl⟩

/-- Claim C10 (amended): `Listen` (both the `Session` variant of conn.go
and the bounded-requests variant) returns the error "timeout should be
greater than zero" before constructing anything whenever the timeout is
zero or negative, so every successfully constructed Listener has a strictly
positive idle timeout; the ticker period `timeout / 10` is positive whenever
the timeout is at least 10ns. -/
theorem Udp.listen_rejects_nonpositive_timeout :
    (∀ s : Udp.Session, s.Timeout ≤ 0 →
      Udp.Listen s = .error "timeout should be greater than zero") ∧
    (∀ (s : Udp.Session) (l : Udp.Listener), Udp.Listen s = .ok l →
      0 < l.session.Timeout ∧ l.accepting = true) ∧
    (∀ s : Udp.Session, 10 ≤ s.Timeout → 0 < Udp.tickerPeriod s.Timeout) ∧
    (∀ t r : Int, t ≤ 0 → UdpR.Listen t r = .error "timeout should be greater than zero") := by
  refine ⟨?_, ?_, ?_, ?_⟩
  · intro s h
    simp [Udp.Listen, h]
  · intro s l hok
    unfold Udp.Listen at hok
    split at hok
    · exact absurd hok (by simp)
    · rename_i h
      simp only [Except.ok.injEq] at hok
      rw [← hok]
      exact ⟨by show 0 < s.Timeout; omega, rfl⟩
  · intro s h
    have h0 : (0 : Int) ≤ s.Timeout := by omega
    obtain ⟨m, hm⟩ := Int.eq_ofNat_of_zero_le h0
    rw [hm] at h ⊢
    unfold Udp.tickerPeriod
    have heq : Int.tdiv (m : Int) 10 = ((m / 10 : Nat) : Int) := rfl
    rw [heq]
    have hm10 : 10 ≤ m := by exact_mod_cast h
    have hdiv : 1 ≤ m / 10 := (Nat.one_le_div_iff (by omega)).mpr hm10
    exact_mod_cast hdiv
  · intro t r h
    simp [UdpR.Listen, h]

/-- Witness for C10 (amended) at timeouts -3ns and 3s. -/
theorem Udp.listen_rejects_nonpositive_timeout_witness :
    ((-3 : Int) ≤ 0) ∧
    Udp.Listen ⟨0, 0, -3⟩ = .error "timeout should be greater than zero" ∧
    (0 : Int) < (Udp.Listener.mk true [] false false ⟨0, 0, 3000000000⟩).session.Timeout ∧
    ((10 : Int) ≤ 3000000000) ∧ (0 : Int) < Udp.tickerPeriod 3000000000 ∧
    UdpR.Listen 0 4 = .error "timeout should be greater than zero" :=
  ⟨by decide,
   Udp.listen_rejects_nonpositive_timeout.1 ⟨0, 0, -3⟩ (by decide),
   (Udp.listen_rejects_nonpositive_timeout.2.1 ⟨0, 0, 3000000000⟩
     ⟨true, [], false, false, ⟨0, 0, 3000000000⟩⟩ rfl).1,
   by decide,
   Udp.listen_rejects_nonpositive_timeout.2.2.1 ⟨0, 0, 3000000000⟩ (by decide),
   Udp.listen_rejects_nonpositive_timeout.2.2.2 0 4 (by decide)⟩

theorem UdpProxy.inv_init : UdpProxy.Inv UdpProxy.init = true := by decide

set_option maxRecDepth 40000 in
set_option maxHeartbeats 2000000 in
theorem UdpProxy.inv_step : ∀ s : UdpProxy.State, UdpProxy.Inv s = true →
    ∀ t ∈ UdpProxy.succs s, UdpProxy.Inv t = true := by decide

theorem UdpProxy.reachable_inv (s : UdpProxy.State) (h : UdpProxy.Reachable s) :
    UdpProxy.Inv s = true := by
  induction h with
  | refl => exact UdpProxy.inv_init
  | tail hab hbc ih => exact UdpProxy.inv_step _ ih _ hbc

/-- Claim C5: in every reachable state of the `ServeUDP` model in which the
handler has returned, both copy loops have stopped (their `io.CopyBuffer`
calls have returned) and both the session conn and the backend conn are
closed — `ServeUDP` returns only once both directions have stopped and
leaks neither end. -/
theorem UdpProxy.serveUDP_returns_after_both_copies (s : UdpProxy.State)
    (hreach : UdpProxy.Reachable s) (hret : s.mainPh = .returned) :
    UdpProxy.stopped s.copyA = true ∧ UdpProxy.stopped s.copyB = true ∧
    s.connClosed = true ∧ s.backendClosed = true := by
  have hinv := UdpProxy.reachable_inv s hreach
  unfold UdpProxy.Inv at hinv
  rw [hret] at hinv
  simp at hinv
  refine ⟨?_, ?_, ?_, ?_⟩ <;> tauto

/-- Witness for C5: an explicit 5-step interleaving reaching a returned
state, at which both copies are stopped and both conns closed. -/
theorem UdpProxy.serveUDP_returns_after_both_copies_witness :
    UdpProxy.Reachable UdpProxy.finalState ∧ UdpProxy.finalState.mainPh = .returned ∧
    UdpProxy.stopped UdpProxy.finalState.copyA = true ∧
    UdpProxy.stopped UdpProxy.finalState.copyB = true ∧
    UdpProxy.finalState.connClosed = true ∧ UdpProxy.finalState.backendClosed = true := by
  have s1 : UdpProxy.Step UdpProxy.init ⟨.wait1, .sending, .copying, false, false⟩ := by unfold UdpProxy.Step; decide
  have s2 : UdpProxy.Step ⟨.wait1, .sending, .copying, false, false⟩
      ⟨.wait2, .closingDst, .copying, false, false⟩ := by unfold UdpProxy.Step; decide
  have s3 : UdpProxy.Step ⟨.wait2, .closingDst, .copying, false, false⟩
      ⟨.wait2, .closingDst, .sending, false, false⟩ := by unfold UdpProxy.Step; decide
  have s4 : UdpProxy.Step ⟨.wait2, .closingDst, .sending, false, false⟩
      ⟨.closingConn, .closingDst, .closingDst, false, false⟩ := by unfold UdpProxy.Step; decide
  have s5 : UdpProxy.Step ⟨.closingConn, .closingDst, .closingDst, false, false⟩
      UdpProxy.finalState := by unfold UdpProxy.Step; decide
  have hreach : UdpProxy.Reachable UdpProxy.finalState :=
    Relation.ReflTransGen.tail
      (Relation.ReflTransGen.tail
        (Relation.ReflTransGen.tail
          (Relation.ReflTransGen.tail
            (Relation.ReflTransGen.tail Relation.ReflTransGen.refl s1) s2) s3) s4) s5
  have h := UdpProxy.serveUDP_returns_after_both_copies UdpProxy.finalState hreach rfl
  exact ⟨hreach, rfl, h.1, h.2.1, h.2.2.1, h.2.2.2⟩
